import Mathlib

/-!
Verification of the file I/O layer of the basis_set_exchange repository
(`basis_set_exchange/fileio.py`): reading and writing the JSON-based basis
set format, directory classification, and the notes reader.

The filesystem is modelled as a partial map from path strings to file
contents.  A file content records the raw text of the file together with
the outcome of parsing it as JSON through the standard `json` library
(which is outside the repository): either a decode error, or the parsed
JSON value.  Python exceptions become an explicit error type returned
through `Except`.
-/

namespace Fileio

/-- A JSON value, as produced by `json.load`.  Objects keep their fields in
order (Python dicts preserve insertion order). -/
inductive Json where
  | null : Json
  | bool (b : Bool) : Json
  | num (n : Int) : Json
  | str (s : String) : Json
  | arr (elems : List Json) : Json
  | obj (fields : List (String × Json)) : Json

/-- The decode error raised by `json.load` on malformed input, kept
abstract: only its identity matters (it is chained as the cause of the
RuntimeError the code raises). -/
structure JSONDecodeError where
  msg : String
deriving DecidableEq

/-- The content of one regular file on disk.  `text raw err` is a file
whose bytes `raw` are not valid JSON, `err` being the decode error that
`json.load` raises on it; `jsonFile raw js` is a file whose bytes `raw`
parse (through the reader applicable to its path, including transparent
bz2 decompression) to the JSON value `js`. -/
inductive FileContent where
  | text (raw : String) (err : JSONDecodeError) : FileContent
  | jsonFile (raw : String) (js : Json) : FileContent

/-- The raw text bytes of a file (what `open(p).read()` returns). -/
def FileContent.raw : FileContent → String
  | .text raw _ => raw
  | .jsonFile raw _ => raw

/-- A filesystem: `none` when no regular file exists at the path
(`os.path.isfile` is false), otherwise the file content. -/
def FS := String → Option FileContent

/-- Python `str.endswith`. -/
def endswith (s suffix : String) : Bool :=
  List.isSuffixOf suffix.data s.data

/-- Is `needle` a contiguous substring of `hay` (Python `in` on strings)? -/
def isSubstrList (needle : List Char) : List Char → Bool
  | [] => List.isPrefixOf needle []
  | c :: rest => List.isPrefixOf needle (c :: rest) || isSubstrList needle rest

/-- The errors the read path can raise.  `fileNotFound` models
`FileNotFoundError` (the NotFoundError of the design taxonomy);
`jsonErrors` models `RuntimeError(... contains JSON errors) from ex`
(MalformedDataError: carries the chained decode error as cause);
`notBseFile` models `RuntimeError(... does not appear to be a BSE JSON
file)` (SchemaMismatchError); `typeError` models the TypeError Python
raises when `in` is applied to a non-container value. -/
inductive PyErr where
  | fileNotFound (msg : String) : PyErr
  | jsonErrors (msg : String) (cause : JSONDecodeError) : PyErr
  | notBseFile (msg : String) : PyErr
  | typeError : PyErr

/-- Message of the FileNotFoundError raised by `_read_plain_json`. -/
def fnfMsg (file_path : String) : String :=
  "JSON file " ++ file_path ++ " does not exist, is not readable, or is not a file"

/-- Message of the RuntimeError raised on malformed JSON. -/
def jsonErrMsg (file_path : String) : String :=
  "File " ++ file_path ++ " contains JSON errors"

/-- Message of the RuntimeError raised when the BSE marker key is missing. -/
def notBseMsg (file_path : String) : String :=
  "File " ++ file_path ++ " does not appear to be a BSE JSON file"

/-- Python membership test `key in js` on a value loaded from JSON:
for a dict it tests key membership, for a list it tests element equality
(a string only ever equals a string), for a string it tests substring
containment, and for any other value it raises TypeError. -/
def pyContains (key : String) : Json → Except Unit Bool
  | .obj fields => .ok (fields.any fun kv => kv.1 == key)
  | .arr elems => .ok (elems.any fun x =>
      match x with
      | .str s => s == key
      | _ => false)
  | .str s => .ok (isSubstrList key.data s.data)
  | _ => .error ()

/-- Parsing the content of an existing file: what `json.load` does when
the code opens the file (through `bz2.open` for a path ending in `.bz2`,
plain `open` otherwise; the model records the parse outcome of the
applicable reader directly). -/
def contentParse : FileContent → Except JSONDecodeError Json
  | .text _ err => .error err
  | .jsonFile _ js => .ok js

/-- Embedding of `_read_plain_json(file_path, check_bse)`:
checks `os.path.isfile`, loads the JSON (bz2-transparently), and when
`check_bse` is true additionally requires the `molssi_bse_schema` key. -/
def _read_plain_json (fs : FS) (file_path : String) (check_bse : Bool) :
    Except PyErr Json :=
  match fs file_path with
  | none => .error (.fileNotFound (fnfMsg file_path))
  | some content =>
    match (if endswith file_path ".bz2" then contentParse content
           else contentParse content) with
    | .error ex => .error (.jsonErrors (jsonErrMsg file_path) ex)
    | .ok js =>
      if check_bse = true then
        match pyContains "molssi_bse_schema" js with
        | .error _ => .error .typeError
        | .ok b =>
          if b then .ok js
          else .error (.notBseFile (notBseMsg file_path))
      else .ok js

/-- Embedding of `read_json_basis`. -/
def read_json_basis (fs : FS) (file_path : String) : Except PyErr Json :=
  _read_plain_json fs file_path true

/-- Embedding of `read_schema`. -/
def read_schema (fs : FS) (file_path : String) : Except PyErr Json :=
  _read_plain_json fs file_path false

/-- Embedding of `read_references`. -/
def read_references (fs : FS) (file_path : String) : Except PyErr Json :=
  _read_plain_json fs file_path true

/-- Embedding of `read_metadata`. -/
def read_metadata (fs : FS) (file_path : String) : Except PyErr Json :=
  _read_plain_json fs file_path false

/-- Embedding of `read_notes_file`: `None` when the path is not a regular
file, otherwise the full text content. -/
def read_notes_file (fs : FS) (file_path : String) : Option String :=
  match fs file_path with
  | none => none
  | some content => some content.raw

/-- Byte-order comparison of character lists, used by the canonical key
sort below. -/
def charListLe : List Char → List Char → Bool
  | [], _ => true
  | _ :: _, [] => false
  | a :: as, b :: bs =>
    if a.toNat < b.toNat then true
    else if b.toNat < a.toNat then false
    else charListLe as bs

/-- Key comparison for the canonical sort. -/
def strLe (a b : String) : Bool := charListLe a.data b.data

/-- Insertion of one field into a key-sorted field list. -/
def insertField (kv : String × Json) :
    List (String × Json) → List (String × Json)
  | [] => [kv]
  | x :: xs => if strLe kv.1 x.1 then kv :: x :: xs else x :: insertField kv xs

/-- Insertion sort of an object field list by key. -/
def sortFields : List (String × Json) → List (String × Json)
  | [] => []
  | x :: xs => insertField x (sortFields xs)

mutual
/-- Modelled from the spec: the sort collaborator (`sort_basis_dict` /
`sort_references_dict` from the unseen `sort` module) is a pure,
deterministic, total canonical reordering of the internal keys of a
document; this model recursively sorts every object field list by key
and leaves everything else in place. -/
def sortJson : Json → Json
  | .null => .null
  | .bool b => .bool b
  | .num n => .num n
  | .str s => .str s
  | .arr elems => .arr (sortJsonList elems)
  | .obj fields => .obj (sortFields (sortJsonFields fields))

/-- Canonical sort, mapped over the elements of an array. -/
def sortJsonList : List Json → List Json
  | [] => []
  | x :: xs => sortJson x :: sortJsonList xs

/-- Canonical sort, mapped over the values of an object. -/
def sortJsonFields : List (String × Json) → List (String × Json)
  | [] => []
  | (k, v) :: fs => (k, sortJson v) :: sortJsonFields fs
end

/-- Modelled from the spec: `sort_basis_dict` from the unseen `sort`
module, the basis-specific canonical ordering. -/
def sort_basis_dict (bs : Json) : Json := sortJson bs

/-- Modelled from the spec: `sort_references_dict` from the unseen `sort`
module, the reference-specific canonical ordering. -/
def sort_references_dict (refs : Json) : Json := sortJson refs

/-- Embedding of `_write_plain_json(file_path, js)`.  Serialization by
`json.dump` (indent 2, ensure_ascii false) and bz2 compression live
outside the repository and are abstracted as the deterministic functions
`dump` and `compress`; the stored file records both its bytes and the
JSON value those bytes parse back to.  The destination is overwritten
unconditionally. -/
def _write_plain_json (dump : Json → String) (compress : String → String)
    (fs : FS) (file_path : String) (js : Json) : FS :=
  fun p =>
    if p = file_path then
      some (if endswith file_path ".bz2" then
              .jsonFile (compress (dump js)) js
            else
              .jsonFile (dump js) js)
    else fs p

/-- Embedding of `write_json_basis`: sorts through `sort_basis_dict`,
then writes. -/
def write_json_basis (dump : Json → String) (compress : String → String)
    (fs : FS) (file_path : String) (bs : Json) : FS :=
  _write_plain_json dump compress fs file_path (sort_basis_dict bs)

/-- Embedding of `write_references`: sorts through `sort_references_dict`,
then writes. -/
def write_references (dump : Json → String) (compress : String → String)
    (fs : FS) (file_path : String) (refs : Json) : FS :=
  _write_plain_json dump compress fs file_path (sort_references_dict refs)

/-- One regular file met by `os.walk(data_dir)`: the directory that holds
it, as a path relative to `data_dir` (empty string for the top level), and
its basename.  Basenames produced by `os.walk` contain no path
separator. -/
structure WalkEntry where
  root : String
  base : String
deriving DecidableEq

/-- `os.path.relpath(os.path.join(root, basename), data_dir)`: the path of
the entry relative to the dataset root. -/
def relpathOf (e : WalkEntry) : String :=
  if e.root = "" then e.base else e.root ++ "/" ++ e.base

/-- The two reserved filenames skipped by the classifier. -/
def special : List String := ["METADATA.json", "REFERENCES.json"]

/-- Embedding of `get_all_filelist(data_dir)`.  The traversal itself is
abstracted: `files` is the list of regular files `os.walk` enumerates, in
traversal order.  Returns the (metadata, table, element, component)
lists of relative paths. -/
def get_all_filelist :
    List WalkEntry → List String × List String × List String × List String
  | [] => ([], [], [], [])
  | e :: rest =>
    let r := get_all_filelist rest
    if special.contains e.base then r
    else
      let fpath := relpathOf e
      if endswith e.base ".metadata.json" then
        (fpath :: r.1, r.2.1, r.2.2.1, r.2.2.2)
      else if endswith e.base ".table.json" then
        (r.1, fpath :: r.2.1, r.2.2.1, r.2.2.2)
      else if endswith e.base ".element.json" then
        (r.1, r.2.1, fpath :: r.2.2.1, r.2.2.2)
      else if endswith e.base ".json" then
        (r.1, r.2.1, r.2.2.1, fpath :: r.2.2.2)
      else r

/-- The contribution of a single walk entry to the metadata list: the
branch of the classifier if-chain that appends to `all_meta`. -/
def pickMeta (e : WalkEntry) : Option String :=
  if special.contains e.base then none
  else if endswith e.base ".metadata.json" then some (relpathOf e)
  else none

/-- The contribution of a single walk entry to the table list. -/
def pickTable (e : WalkEntry) : Option String :=
  if special.contains e.base then none
  else if endswith e.base ".metadata.json" then none
  else if endswith e.base ".table.json" then some (relpathOf e)
  else none

/-- The contribution of a single walk entry to the element list. -/
def pickElement (e : WalkEntry) : Option String :=
  if special.contains e.base then none
  else if endswith e.base ".metadata.json" then none
  else if endswith e.base ".table.json" then none
  else if endswith e.base ".element.json" then some (relpathOf e)
  else none

/-- The contribution of a single walk entry to the component list. -/
def pickComponent (e : WalkEntry) : Option String :=
  if special.contains e.base then none
  else if endswith e.base ".metadata.json" then none
  else if endswith e.base ".table.json" then none
  else if endswith e.base ".element.json" then none
  else if endswith e.base ".json" then some (relpathOf e)
  else none

/-- Does a read result consist of the SchemaMismatchError of the design
taxonomy (the RuntimeError raised when the marker key is absent)? -/
def isSchemaMismatchResult : Except PyErr Json → Bool
  | .error (.notBseFile _) => true
  | _ => false

/-- An empty filesystem: no path is a regular file. -/
def fsEmpty : FS := fun _ => none

/-- A filesystem holding one file, `bad.json`, whose content is not valid
JSON. -/
def fsBad : FS := fun p =>
  if p = "bad.json" then some (.text "oops" ⟨"Expecting value"⟩) else none

/-- A filesystem holding one file, `five.json`, whose content is the
valid JSON document `5` (a number, not a mapping). -/
def fsNum : FS := fun p =>
  if p = "five.json" then some (.jsonFile "5" (.num 5)) else none

/-- A filesystem holding one file, `m.json`, whose content is a valid
JSON mapping carrying the `molssi_bse_schema` marker key. -/
def fsMarked : FS := fun p =>
  if p = "m.json" then
    some (.jsonFile "raw" (.obj [("molssi_bse_schema", .str "v1")]))
  else none

/-- A filesystem holding one plain-text file, `notes.txt`, whose content
is exactly `hello`. -/
def fsNotes : FS := fun p =>
  if p = "notes.txt" then some (.text "hello" ⟨"Expecting value"⟩) else none

/-- A trivial serializer, standing in for `json.dump` in concrete
witnesses (any deterministic function works for them). -/
def dump0 : Json → String := fun _ => ""

/-- A trivial compressor, standing in for `bz2` output compression in
concrete witnesses. -/
def compress0 : String → String := fun s => s

/-- Key membership is unchanged when the canonical sort maps over the
values of a field list. -/
theorem anyKey_sortJsonFields (k : String) (l : List (String × Json)) :
    (sortJsonFields l).any (fun kv => kv.1 == k)
      = l.any (fun kv => kv.1 == k) := by
  induction l with
  | nil => rfl
  | cons kv l ih =>
    obtain ⟨k0, v⟩ := kv
    simp [sortJsonFields, ih]

/-- Key membership is unchanged by inserting a field: the result holds
the new key or one already present. -/
theorem anyKey_insertField (k : String) (kv : String × Json)
    (l : List (String × Json)) :
    (insertField kv l).any (fun x => x.1 == k)
      = (kv.1 == k || l.any (fun x => x.1 == k)) := by
  induction l with
  | nil => simp [insertField]
  | cons x xs ih =>
    simp only [insertField]
    split
    · simp
    · simp [ih, Bool.or_comm, Bool.or_left_comm]

/-- Key membership is unchanged by the canonical key sort. -/
theorem anyKey_sortFields (k : String) (l : List (String × Json)) :
    (sortFields l).any (fun x => x.1 == k)
      = l.any (fun x => x.1 == k) := by
  induction l with
  | nil => rfl
  | cons x xs ih => simp [sortFields, anyKey_insertField, ih]

/-- The marker-key membership test gives the same answer on a canonically
sorted object as on the original object. -/
theorem pyContains_sort_obj (fields : List (String × Json)) :
    pyContains "molssi_bse_schema" (sort_basis_dict (.obj fields))
      = .ok (fields.any (fun kv => kv.1 == "molssi_bse_schema")) := by
  simp [sort_basis_dict, sortJson, pyContains, anyKey_sortFields,
    anyKey_sortJsonFields]

/-- Claim C4: for every path that is not an existing regular file, all
four read entry points fail with the NotFoundError of the taxonomy (the
FileNotFoundError raised by `_read_plain_json` before anything is read),
never succeeding or silently no-opping. -/
theorem claim_C4 (fs : FS) (p : String) (h : fs p = none) :
    read_json_basis fs p = .error (.fileNotFound (fnfMsg p)) ∧
    read_schema fs p = .error (.fileNotFound (fnfMsg p)) ∧
    read_references fs p = .error (.fileNotFound (fnfMsg p)) ∧
    read_metadata fs p = .error (.fileNotFound (fnfMsg p)) := by
  refine ⟨?_, ?_, ?_, ?_⟩ <;>
    simp [read_json_basis, read_schema, read_references, read_metadata,
      _read_plain_json, h]

/-- Witness for C4 at the empty filesystem and the path `missing.json`. -/
theorem claim_C4_witness :
    read_json_basis fsEmpty "missing.json"
        = .error (.fileNotFound (fnfMsg "missing.json")) ∧
    read_schema fsEmpty "missing.json"
        = .error (.fileNotFound (fnfMsg "missing.json")) ∧
    read_references fsEmpty "missing.json"
        = .error (.fileNotFound (fnfMsg "missing.json")) ∧
    read_metadata fsEmpty "missing.json"
        = .error (.fileNotFound (fnfMsg "missing.json")) :=
  claim_C4 fsEmpty "missing.json" rfl

/-- Claim C5: for every existing file whose content is not valid JSON,
all four read entry points fail with the MalformedDataError of the
taxonomy (the RuntimeError raised `from` the original decode error), the
original parse error is retained as the cause, and the message includes
the offending file path. -/
theorem claim_C5 (fs : FS) (p raw : String) (err : JSONDecodeError)
    (h : fs p = some (.text raw err)) :
    (read_json_basis fs p = .error (.jsonErrors (jsonErrMsg p) err) ∧
     read_schema fs p = .error (.jsonErrors (jsonErrMsg p) err) ∧
     read_references fs p = .error (.jsonErrors (jsonErrMsg p) err) ∧
     read_metadata fs p = .error (.jsonErrors (jsonErrMsg p) err)) ∧
    (∃ a b, jsonErrMsg p = a ++ p ++ b) := by
  refine ⟨⟨?_, ?_, ?_, ?_⟩, "File ", " contains JSON errors", rfl⟩ <;>
    simp [read_json_basis, read_schema, read_references, read_metadata,
      _read_plain_json, h, contentParse, ite_self]

/-- Witness for C5 at a filesystem holding the malformed file
`bad.json`. -/
theorem claim_C5_witness :
    (read_json_basis fsBad "bad.json"
        = .error (.jsonErrors (jsonErrMsg "bad.json") ⟨"Expecting value"⟩) ∧
     read_schema fsBad "bad.json"
        = .error (.jsonErrors (jsonErrMsg "bad.json") ⟨"Expecting value"⟩) ∧
     read_references fsBad "bad.json"
        = .error (.jsonErrors (jsonErrMsg "bad.json") ⟨"Expecting value"⟩) ∧
     read_metadata fsBad "bad.json"
        = .error (.jsonErrors (jsonErrMsg "bad.json") ⟨"Expecting value"⟩)) ∧
    (∃ a b, jsonErrMsg "bad.json" = a ++ "bad.json" ++ b) :=
  claim_C5 fsBad "bad.json" "oops" ⟨"Expecting value"⟩ rfl

/-- Claim C8: the notes reader returns `none` (the absent-value
sentinel), not an error, whenever the path is not an existing regular
file, and for an existing regular file it returns the full raw text
content unmodified. -/
theorem claim_C8 (fs : FS) (p : String) :
    (fs p = none → read_notes_file fs p = none) ∧
    (∀ c, fs p = some c → read_notes_file fs p = some c.raw) := by
  constructor
  · intro h
    simp [read_notes_file, h]
  · intro c h
    simp [read_notes_file, h]

/-- Witness for C8: a missing path gives the sentinel, and a file
containing exactly `hello` reads back as exactly `hello`. -/
theorem claim_C8_witness :
    read_notes_file fsNotes "absent.txt" = none ∧
    read_notes_file fsNotes "notes.txt" = some "hello" :=
  ⟨(claim_C8 fsNotes "absent.txt").1 rfl,
   (claim_C8 fsNotes "notes.txt").2 (.text "hello" ⟨"Expecting value"⟩) rfl⟩

/-- Counterexample to C2 as stated: `five.json` holds the valid JSON
document `5`, which lacks the `molssi_bse_schema` key, yet
`read_json_basis` fails with a TypeError (Python `in` applied to an int),
not with the SchemaMismatchError the claim requires. -/
theorem claim_C2_counterexample :
    read_json_basis fsNum "five.json" = .error .typeError ∧
    isSchemaMismatchResult (read_json_basis fsNum "five.json") = false := by
  constructor <;> rfl

/-- Claim C2 (amended to documents whose top level is a JSON mapping):
for every file holding a valid JSON object, if the object lacks the
`molssi_bse_schema` key then `read_schema` and `read_metadata` succeed
while `read_json_basis` and `read_references` fail with
SchemaMismatchError; if the key is present, all four entry points succeed
and return the parsed document. -/
theorem claim_C2 (fs : FS) (p raw : String) (fields : List (String × Json))
    (h : fs p = some (.jsonFile raw (.obj fields))) :
    (fields.any (fun kv => kv.1 == "molssi_bse_schema") = false →
      read_schema fs p = .ok (.obj fields) ∧
      read_metadata fs p = .ok (.obj fields) ∧
      read_json_basis fs p = .error (.notBseFile (notBseMsg p)) ∧
      read_references fs p = .error (.notBseFile (notBseMsg p))) ∧
    (fields.any (fun kv => kv.1 == "molssi_bse_schema") = true →
      read_schema fs p = .ok (.obj fields) ∧
      read_metadata fs p = .ok (.obj fields) ∧
      read_json_basis fs p = .ok (.obj fields) ∧
      read_references fs p = .ok (.obj fields)) := by
  constructor <;> intro hk <;>
    refine ⟨?_, ?_, ?_, ?_⟩ <;>
      simp [read_json_basis, read_schema, read_references, read_metadata,
        _read_plain_json, h, contentParse, pyContains, hk, ite_self]

/-- Witness for the amended C2 at a file holding a mapping that carries
the marker key: all four entry points succeed. -/
theorem claim_C2_witness :
    read_schema fsMarked "m.json"
        = .ok (.obj [("molssi_bse_schema", .str "v1")]) ∧
    read_metadata fsMarked "m.json"
        = .ok (.obj [("molssi_bse_schema", .str "v1")]) ∧
    read_json_basis fsMarked "m.json"
        = .ok (.obj [("molssi_bse_schema", .str "v1")]) ∧
    read_references fsMarked "m.json"
        = .ok (.obj [("molssi_bse_schema", .str "v1")]) :=
  (claim_C2 fsMarked "m.json" "raw" [("molssi_bse_schema", .str "v1")]
    rfl).2 rfl

/-- Claim C10: the failures of the marker-checked read path are mutually
exclusive and checked in a fixed order: NotFoundError is raised exactly
when the path is not a regular file (before any content is read),
MalformedDataError is raised for an existing file with unparseable
content regardless of the marker flag (the marker is never examined), and
SchemaMismatchError occurs only once the file has been read and parsed
successfully to a JSON value. -/
theorem claim_C10 (fs : FS) (p : String) (check : Bool) :
    (_read_plain_json fs p check = .error (.fileNotFound (fnfMsg p)) ↔
      fs p = none) ∧
    (∀ raw err, fs p = some (.text raw err) →
      _read_plain_json fs p check = .error (.jsonErrors (jsonErrMsg p) err)) ∧
    (∀ m, _read_plain_json fs p check = .error (.notBseFile m) →
      check = true ∧ m = notBseMsg p ∧
        ∃ raw js, fs p = some (.jsonFile raw js)) := by
  refine ⟨?_, ?_, ?_⟩
  · cases hfs : fs p with
    | none => simp [_read_plain_json, hfs]
    | some c =>
      cases c with
      | text raw err =>
        simp [_read_plain_json, hfs, contentParse, ite_self]
      | jsonFile raw js =>
        cases check with
        | false => simp [_read_plain_json, hfs, contentParse, ite_self]
        | true =>
          cases hpc : pyContains "molssi_bse_schema" js with
          | error u =>
            simp [_read_plain_json, hfs, contentParse, ite_self, hpc]
          | ok b =>
            cases b <;>
              simp [_read_plain_json, hfs, contentParse, ite_self, hpc]
  · intro raw err h
    simp [_read_plain_json, h, contentParse, ite_self]
  · intro m h
    cases hfs : fs p with
    | none => simp [_read_plain_json, hfs] at h
    | some c =>
      cases c with
      | text raw err =>
        simp [_read_plain_json, hfs, contentParse, ite_self] at h
      | jsonFile raw js =>
        cases check with
        | false => simp [_read_plain_json, hfs, contentParse, ite_self] at h
        | true =>
          cases hpc : pyContains "molssi_bse_schema" js with
          | error u =>
            simp [_read_plain_json, hfs, contentParse, ite_self, hpc] at h
          | ok b =>
            cases b with
            | false =>
              simp [_read_plain_json, hfs, contentParse, ite_self, hpc] at h
              exact ⟨rfl, h.symm, raw, js, rfl⟩
            | true =>
              simp [_read_plain_json, hfs, contentParse, ite_self, hpc] at h

/-- Witness for C10 at the malformed file `bad.json` with the marker
flag set: the failure is the MalformedDataError carrying the decode
error. -/
theorem claim_C10_witness :
    _read_plain_json fsBad "bad.json" true
      = .error (.jsonErrors (jsonErrMsg "bad.json") ⟨"Expecting value"⟩) :=
  (claim_C10 fsBad "bad.json" true).2.1 "oops" ⟨"Expecting value"⟩ rfl

/-- Claim C3: the classifier is exactly the per-file contribution
functions `pickMeta`/`pickTable`/`pickElement`/`pickComponent`, which
place every non-reserved file into at most one of the four categories,
decided by basename suffix in the precedence order `.metadata.json`,
`.table.json`, `.element.json`, `.json` (first match wins), and place a
file matching none of the suffixes in no category. -/
theorem claim_C3 :
    (∀ files, get_all_filelist files =
      (files.filterMap pickMeta, files.filterMap pickTable,
       files.filterMap pickElement, files.filterMap pickComponent)) ∧
    (∀ e, (pickMeta e).isSome.toNat + (pickTable e).isSome.toNat +
        (pickElement e).isSome.toNat + (pickComponent e).isSome.toNat ≤ 1) ∧
    (∀ e, e.base ∉ special →
      (endswith e.base ".metadata.json" = true →
        pickMeta e = some (relpathOf e) ∧ pickTable e = none ∧
        pickElement e = none ∧ pickComponent e = none) ∧
      (endswith e.base ".metadata.json" = false →
        endswith e.base ".table.json" = true →
        pickMeta e = none ∧ pickTable e = some (relpathOf e) ∧
        pickElement e = none ∧ pickComponent e = none) ∧
      (endswith e.base ".metadata.json" = false →
        endswith e.base ".table.json" = false →
        endswith e.base ".element.json" = true →
        pickMeta e = none ∧ pickTable e = none ∧
        pickElement e = some (relpathOf e) ∧ pickComponent e = none) ∧
      (endswith e.base ".metadata.json" = false →
        endswith e.base ".table.json" = false →
        endswith e.base ".element.json" = false →
        endswith e.base ".json" = true →
        pickMeta e = none ∧ pickTable e = none ∧ pickElement e = none ∧
        pickComponent e = some (relpathOf e)) ∧
      (endswith e.base ".metadata.json" = false →
        endswith e.base ".table.json" = false →
        endswith e.base ".element.json" = false →
        endswith e.base ".json" = false →
        pickMeta e = none ∧ pickTable e = none ∧ pickElement e = none ∧
        pickComponent e = none)) := by
  refine ⟨?_, ?_, ?_⟩
  · intro files
    induction files with
    | nil => rfl
    | cons e rest ih =>
      by_cases h0 : e.base ∈ special <;>
        cases h1 : endswith e.base ".metadata.json" <;>
        cases h2 : endswith e.base ".table.json" <;>
        cases h3 : endswith e.base ".element.json" <;>
        cases h4 : endswith e.base ".json" <;>
        simp [get_all_filelist, List.filterMap_cons, ih, pickMeta, pickTable,
          pickElement, pickComponent, h0, h1, h2, h3, h4]
  · intro e
    by_cases h0 : e.base ∈ special <;>
      cases h1 : endswith e.base ".metadata.json" <;>
      cases h2 : endswith e.base ".table.json" <;>
      cases h3 : endswith e.base ".element.json" <;>
      cases h4 : endswith e.base ".json" <;>
      simp [pickMeta, pickTable, pickElement, pickComponent,
        h0, h1, h2, h3, h4]
  · intro e h0
    refine ⟨?_, ?_, ?_, ?_, ?_⟩ <;> intros <;>
      simp [pickMeta, pickTable, pickElement, pickComponent, h0, *]

/-- Witness for C3: a basename ending in `.metadata.json` goes to the
metadata category only, even though it also ends in `.json`. -/
theorem claim_C3_witness :
    pickMeta ⟨"", "a.metadata.json"⟩ = some "a.metadata.json" ∧
    pickTable ⟨"", "a.metadata.json"⟩ = none ∧
    pickElement ⟨"", "a.metadata.json"⟩ = none ∧
    pickComponent ⟨"", "a.metadata.json"⟩ = none :=
  (claim_C3.2.2 ⟨"", "a.metadata.json"⟩ (by decide)).1 (by decide)

/-- Claim C7: the classifier skips a file whose basename is exactly
`METADATA.json` or `REFERENCES.json` wherever it occurs in the
enumeration, and on the example tree it returns exactly the lists the
claim gives, as paths relative to the dataset root. -/
theorem claim_C7 :
    (∀ pre (e : WalkEntry) post,
      (e.base = "METADATA.json" ∨ e.base = "REFERENCES.json") →
      get_all_filelist (pre ++ e :: post) = get_all_filelist (pre ++ post)) ∧
    get_all_filelist
      [⟨"", "a.element.json"⟩, ⟨"", "b.table.json"⟩, ⟨"", "c.metadata.json"⟩,
       ⟨"", "d.json"⟩, ⟨"", "METADATA.json"⟩, ⟨"", "REFERENCES.json"⟩,
       ⟨"sub", "e.element.json"⟩] =
      (["c.metadata.json"], ["b.table.json"],
       ["a.element.json", "sub/e.element.json"], ["d.json"]) := by
  constructor
  · intro pre e post h
    have hb : e.base ∈ special := by
      rcases h with h | h <;> simp [special, h]
    induction pre with
    | nil => simp [get_all_filelist, hb]
    | cons x xs ih =>
      simp only [List.cons_append, get_all_filelist, List.append_eq, ih]
  · decide

/-- Witness for C7: a reserved basename deep in the tree is skipped. -/
theorem claim_C7_witness :
    get_all_filelist [⟨"sub", "METADATA.json"⟩] = get_all_filelist [] :=
  claim_C7.1 [] ⟨"sub", "METADATA.json"⟩ [] (Or.inl rfl)

/-- A basename ending in the compressed suffix `.bz2` ends in none of
the four classifier suffixes: two suffixes of the same string compare by
length, and `.bz2` is not a suffix of any of the four. -/
theorem endswith_bz2_excluded (s : String) (h : endswith s ".bz2" = true) :
    endswith s ".metadata.json" = false ∧
    endswith s ".table.json" = false ∧
    endswith s ".element.json" = false ∧
    endswith s ".json" = false := by
  rw [endswith, List.isSuffixOf_iff_suffix] at h
  have key : ∀ u : String, ".bz2".data.length ≤ u.data.length →
      ¬ (".bz2".data <:+ u.data) → endswith s u = false := by
    intro u hlen hnot
    cases hu : endswith s u
    · rfl
    · exfalso
      rw [endswith, List.isSuffixOf_iff_suffix] at hu
      exact hnot (List.suffix_of_suffix_length_le h hu hlen)
  exact ⟨key ".metadata.json" (by decide) (by decide),
         key ".table.json" (by decide) (by decide),
         key ".element.json" (by decide) (by decide),
         key ".json" (by decide) (by decide)⟩

/-- Claim C9: classification depends only on the basename (two entries
with the same basename land in categories of the same sizes), every file
whose basename ends in the compressed suffix `.bz2` (such as
`x.element.json.bz2`) is placed in no category at all, and yet the JSON
read and write operations transparently handle the `.bz2` suffix. -/
theorem claim_C9 :
    (∀ e eb : WalkEntry, e.base = eb.base →
      (get_all_filelist [e]).1.length = (get_all_filelist [eb]).1.length ∧
      (get_all_filelist [e]).2.1.length = (get_all_filelist [eb]).2.1.length ∧
      (get_all_filelist [e]).2.2.1.length
        = (get_all_filelist [eb]).2.2.1.length ∧
      (get_all_filelist [e]).2.2.2.length
        = (get_all_filelist [eb]).2.2.2.length) ∧
    (∀ files (e : WalkEntry), endswith e.base ".bz2" = true →
      get_all_filelist (e :: files) = get_all_filelist files) ∧
    (∀ fs p raw js, endswith p ".bz2" = true →
      fs p = some (.jsonFile raw js) → read_schema fs p = .ok js) ∧
    (∀ (dump : Json → String) (compress : String → String) fs p js,
      endswith p ".bz2" = true →
      _write_plain_json dump compress fs p js p
        = some (.jsonFile (compress (dump js)) js)) := by
  refine ⟨?_, ?_, ?_, ?_⟩
  · intro e eb h
    simp only [get_all_filelist, h]
    by_cases h0 : eb.base ∈ special <;>
      cases h1 : endswith eb.base ".metadata.json" <;>
      cases h2 : endswith eb.base ".table.json" <;>
      cases h3 : endswith eb.base ".element.json" <;>
      cases h4 : endswith eb.base ".json" <;>
      simp [h0, h1, h2, h3, h4]
  · intro files e h
    obtain ⟨h1, h2, h3, h4⟩ := endswith_bz2_excluded e.base h
    by_cases h0 : e.base ∈ special
    · simp [get_all_filelist, h0]
    · simp [get_all_filelist, h0, h1, h2, h3, h4]
  · intro fs p raw js hbz h
    simp [read_schema, _read_plain_json, h, contentParse, ite_self]
  · intro dump compress fs p js hbz
    simp [_write_plain_json, hbz]

/-- Witness for C9: the `.bz2` file is placed in no category, and a read
through the `.bz2` path succeeds. -/
theorem claim_C9_witness :
    get_all_filelist [⟨"", "x.element.json.bz2"⟩] = get_all_filelist [] ∧
    read_schema
      (fun p => if p = "z.json.bz2" then
        some (.jsonFile "zz" (.obj [])) else none) "z.json.bz2"
      = .ok (.obj []) :=
  ⟨claim_C9.2.1 [] ⟨"", "x.element.json.bz2"⟩ (by decide),
   claim_C9.2.2.1
     (fun p => if p = "z.json.bz2" then
       some (.jsonFile "zz" (.obj [])) else none)
     "z.json.bz2" "zz" (.obj []) (by decide) rfl⟩

/-- Counterexample to C1 as stated: the empty mapping is a document, and
for it a write followed by a read does not return the sorted document:
the read fails with SchemaMismatchError because the document (sorted or
not) lacks the `molssi_bse_schema` key. -/
theorem claim_C1_counterexample :
    read_json_basis
        (write_json_basis dump0 compress0 fsEmpty "p.json" (.obj []))
        "p.json"
      = .error (.notBseFile (notBseMsg "p.json")) ∧
    read_json_basis
        (write_json_basis dump0 compress0 fsEmpty "p.json" (.obj []))
        "p.json"
      ≠ .ok (sort_basis_dict (.obj [])) := by
  have hbz : endswith "p.json" ".bz2" = false := by decide
  have hs : sort_basis_dict (Json.obj []) = Json.obj [] := by
    simp [sort_basis_dict, sortJson, sortJsonFields, sortFields]
  have h1 : read_json_basis
      (write_json_basis dump0 compress0 fsEmpty "p.json" (.obj []))
      "p.json" = .error (.notBseFile (notBseMsg "p.json")) := by
    simp [read_json_basis, _read_plain_json, write_json_basis,
      _write_plain_json, hbz, hs, contentParse, pyContains, dump0]
  exact ⟨h1, by simp [h1]⟩

/-- Claim C1 (amended to documents that carry the marker key, as every
basis document does by the data model): for a mapping document holding
the `molssi_bse_schema` key, writing it with `write_json_basis` and
reading the path back with `read_json_basis` returns exactly the
canonically sorted document `sort_basis_dict d`. -/
theorem claim_C1 (dump : Json → String) (compress : String → String)
    (fs : FS) (p : String) (fields : List (String × Json))
    (h : fields.any (fun kv => kv.1 == "molssi_bse_schema") = true) :
    read_json_basis (write_json_basis dump compress fs p (.obj fields)) p
      = .ok (sort_basis_dict (.obj fields)) := by
  cases hbz : endswith p ".bz2" <;>
    simp [read_json_basis, _read_plain_json, write_json_basis,
      _write_plain_json, hbz, contentParse, ite_self, pyContains_sort_obj, h]

/-- Witness for the amended C1 at a two-field document carrying the
marker key. -/
theorem claim_C1_witness :
    read_json_basis
        (write_json_basis dump0 compress0 fsEmpty "w2.json"
          (.obj [("molssi_bse_schema", .str "v1"), ("a", .num 2)]))
        "w2.json"
      = .ok (sort_basis_dict
          (.obj [("molssi_bse_schema", .str "v1"), ("a", .num 2)])) :=
  claim_C1 dump0 compress0 fsEmpty "w2.json"
    [("molssi_bse_schema", .str "v1"), ("a", .num 2)] (by decide)

/-- Claim C6: each write entry point overwrites deterministically:
writing the same document twice leaves the filesystem exactly as one
write does, the stored file is independent of the prior filesystem
state, and its bytes are the serialization of the canonically sorted
document — so repeated writes are byte-identical. -/
theorem claim_C6 (dump : Json → String) (compress : String → String)
    (fs fs2 : FS) (p : String) (d refs : Json) :
    (∀ q, write_json_basis dump compress
        (write_json_basis dump compress fs p d) p d q
        = write_json_basis dump compress fs p d q) ∧
    (write_json_basis dump compress fs p d p
        = write_json_basis dump compress fs2 p d p) ∧
    (endswith p ".bz2" = false →
      (write_json_basis dump compress fs p d p).map FileContent.raw
        = some (dump (sort_basis_dict d))) ∧
    (∀ q, write_references dump compress
        (write_references dump compress fs p refs) p refs q
        = write_references dump compress fs p refs q) ∧
    (write_references dump compress fs p refs p
        = write_references dump compress fs2 p refs p) ∧
    (endswith p ".bz2" = false →
      (write_references dump compress fs p refs p).map FileContent.raw
        = some (dump (sort_references_dict refs))) := by
  refine ⟨?_, ?_, ?_, ?_, ?_, ?_⟩
  · intro q
    by_cases hq : q = p <;>
      simp [write_json_basis, _write_plain_json, hq]
  · simp [write_json_basis, _write_plain_json]
  · intro hbz
    simp [write_json_basis, _write_plain_json, hbz, FileContent.raw]
  · intro q
    by_cases hq : q = p <;>
      simp [write_references, _write_plain_json, hq]
  · simp [write_references, _write_plain_json]
  · intro hbz
    simp [write_references, _write_plain_json, hbz, FileContent.raw]

/-- Witness for C6: double write equals single write at the destination,
and the stored bytes are the serialized sorted document. -/
theorem claim_C6_witness :
    write_json_basis dump0 compress0
        (write_json_basis dump0 compress0 fsEmpty "w.json" (.num 1))
        "w.json" (.num 1) "w.json"
      = write_json_basis dump0 compress0 fsEmpty "w.json" (.num 1)
          "w.json" ∧
    (write_json_basis dump0 compress0 fsEmpty "w.json" (.num 1)
        "w.json").map FileContent.raw
      = some (dump0 (sort_basis_dict (.num 1))) :=
  ⟨(claim_C6 dump0 compress0 fsEmpty fsEmpty "w.json" (.num 1) (.num 1)).1
      "w.json",
   (claim_C6 dump0 compress0 fsEmpty fsEmpty "w.json" (.num 1)
      (.num 1)).2.2.1 (by decide)⟩

end Fileio
